import Mathlib

/-
Verification of the EricBet dashboard core (src/app.py).

The engine is embedded shallowly: dates are day ordinals (ℤ), prices are
exact rationals (ℚ, standing in for Python floats), pandas dataframes are
lists of samples, and the per-instrument processing loop together with the
two-way comparison section are explicit functions.  Fetching is abstracted
as an environment mapping a ticker to either a history/quote pair or an
error (the try/except around `fetch_stock_data`).
-/

namespace EricBet

/-- One row of the yfinance history dataframe: the date (as a day ordinal,
`pd.Timestamp.toordinal`) and the closing price. -/
structure Sample where
  date : ℤ
  close : ℚ
deriving DecidableEq

/-- One entry of the `STOCKS` configuration list in app.py. -/
structure StockInfo where
  ticker : String
  start_price : ℚ
  name : String
deriving DecidableEq

/-- The `STOCKS` configuration constant of app.py. -/
def STOCKS : List StockInfo :=
  [⟨"AVGO", 294.30, "Broadcom Inc."⟩,
   ⟨"VTSAX", 152.64, "Vanguard Total Stock Market"⟩]

/-- Least-squares slope of `np.polyfit(x, y, 1)`: the closed-form
normal-equation solution (n·Σxy − Σx·Σy) / (n·Σx² − (Σx)²). -/
def lsqSlope (xs ys : List ℚ) : ℚ :=
  ((xs.length : ℚ) * (List.zipWith (· * ·) xs ys).sum - xs.sum * ys.sum) /
    ((xs.length : ℚ) * (xs.map fun x => x * x).sum - xs.sum * xs.sum)

/-- Least-squares intercept of `np.polyfit(x, y, 1)`:
(Σy − slope·Σx) / n. -/
def lsqIntercept (xs ys : List ℚ) : ℚ :=
  (ys.sum - lsqSlope xs ys * xs.sum) / (xs.length : ℚ)

/-- Degree-1 least-squares fit (`np.polyfit(x, y, 1)`), returning
(slope, intercept). -/
def polyfit1 (xs ys : List ℚ) : ℚ × ℚ :=
  (lsqSlope xs ys, lsqIntercept xs ys)

/-- The non-degenerate branch of `get_projection`: fit a line over
(date ordinal, close) and evaluate it at the target ordinal. -/
def fitEval (hist : List Sample) (target : ℤ) : ℚ :=
  (polyfit1 (hist.map fun s => (s.date : ℚ)) (hist.map Sample.close)).1 *
      (target : ℚ) +
    (polyfit1 (hist.map fun s => (s.date : ℚ)) (hist.map Sample.close)).2

/-- `get_projection(hist, target_date_str)` from app.py (lines 35-46):
empty history returns the 0.0 sentinel, otherwise the evaluated fit. -/
def get_projection (hist : List Sample) (target : ℤ) : ℚ :=
  if hist.isEmpty then 0 else fitEval hist target

/-- pandas `iloc[-k]` on the Close column: defined exactly on
1 ≤ k ≤ len, `none` models the IndexError pandas raises otherwise. -/
def ilocNeg (closes : List ℚ) (k : ℕ) : Option ℚ :=
  if 1 ≤ k ∧ k ≤ closes.length then closes.get? (closes.length - k) else none

/-- Previous-close resolution, app.py lines 69-85: with at least two rows,
first read `iloc[-2]`, then compare the live quote with the last history
close; a gap above 0.01 means the quote is newer, so the last history close
becomes the previous close, otherwise `iloc[-2]` is used.  With fewer than
two rows the previous close falls back to the current price. -/
def resolve_prev_close (closes : List ℚ) (current_price : ℚ) : Option ℚ :=
  if 2 ≤ closes.length then
    (ilocNeg closes 2).bind fun _prev_close =>
      (ilocNeg closes 1).bind fun last_hist_price =>
        if 1/100 < |current_price - last_hist_price| then
          some last_hist_price
        else
          ilocNeg closes 2
  else
    some current_price

/-- Result of `fetch_stock_data` as seen through the try/except of the
fetch loop: either a history plus latest price, or an exception. -/
inductive FetchResult where
  | ok (hist : List Sample) (latest_price : ℚ)
  | err (msg : String)
deriving DecidableEq

/-- One record of `stock_data_store` (app.py lines 94-104). -/
structure StockData where
  ticker : String
  name : String
  start_price : ℚ
  current_price : ℚ
  prev_close : ℚ
  total_gain_pct : ℚ
  daily_change_amt : ℚ
  daily_change_pct : ℚ
  history : List Sample
deriving DecidableEq

/-- One iteration of the fetch loop (app.py lines 59-106): an errored fetch
or a failed guard (`hist.empty` or non-positive price) contributes nothing;
otherwise the previous close is resolved and the gain arithmetic of lines
88-92 fills a store record. -/
def processStock (info : StockInfo) (fetch : FetchResult) : Option StockData :=
  match fetch with
  | .err _ => none
  | .ok hist current_price =>
    if ¬ hist.isEmpty ∧ 0 < current_price then
      match resolve_prev_close (hist.map Sample.close) current_price with
      | none => none
      | some prev_close =>
        some {
          ticker := info.ticker
          name := info.name
          start_price := info.start_price
          current_price := current_price
          prev_close := prev_close
          total_gain_pct := (current_price - info.start_price) / info.start_price * 100
          daily_change_amt := current_price - prev_close
          daily_change_pct := (current_price - prev_close) / prev_close * 100
          history := hist }
    else none

/-- The whole fetch loop: `stock_data_store` as a function of the fetch
environment. -/
def buildStore (env : String → FetchResult) : List StockData :=
  STOCKS.filterMap fun info => processStock info (env info.ticker)

/-- Outcome of the Today's Battle Report (app.py lines 170-177). -/
inductive Verdict where
  | draw
  | winA (amt : ℚ)
  | winB (amt : ℚ)
deriving DecidableEq

/-- The daily battle of app.py lines 170-177: an absolute difference of the
daily change percentages below 0.01 is a draw, otherwise the stock with the
larger percentage wins by the (absolute) difference. -/
def daily_battle (a b : StockData) : Verdict :=
  let daily_diff := a.daily_change_pct - b.daily_change_pct
  if |daily_diff| < 1/100 then .draw
  else if 0 < daily_diff then .winA daily_diff
  else .winB |daily_diff|

/-- Everything the comparison section of app.py (lines 109-177) derives
from the two store records: the match prices of lines 116-120, the
projections of line 159, and the battle verdict. -/
structure Comparison where
  stock_a : StockData
  stock_b : StockData
  a_match_price : ℚ
  b_match_price : ℚ
  a_projection : ℚ
  b_projection : ℚ
  verdict : Verdict
deriving DecidableEq

/-- What the page shows below the header: either the full two-column
comparison or the single warning of app.py line 180. -/
inductive Output where
  | comparison (c : Comparison)
  | warning (msg : String)
deriving DecidableEq

/-- The display branch of app.py lines 109-180: exactly two store records
produce the comparison; anything else produces the warning. -/
def render (target : ℤ) (store : List StockData) : Output :=
  match store with
  | [a, b] =>
    .comparison {
      stock_a := a
      stock_b := b
      a_match_price := a.start_price * (1 + b.total_gain_pct / 100)
      b_match_price := b.start_price * (1 + a.total_gain_pct / 100)
      a_projection := get_projection a.history target
      b_projection := get_projection b.history target
      verdict := daily_battle a b }
  | _ => .warning "Could not load data for both stocks to perform comparison."

/-- The denominator of the least-squares slope in `polyfit1`
(n·Σx² − (Σx)²), singled out to reason about its sign. -/
def lsqDenom (xs : List ℚ) : ℚ :=
  (xs.length : ℚ) * (xs.map fun x => x * x).sum - xs.sum * xs.sum

/-- Observation of the battle verdict of a rendered page, if one is shown. -/
def outputVerdict : Output → Option Verdict
  | .comparison c => some c.verdict
  | .warning _ => none

/-- A concrete fetch environment whose two resolved instruments end the day
with daily change percentages of exactly 0.01 and 0. -/
def envBoundary : String → FetchResult := fun t =>
  if t = "AVGO" then .ok [⟨0, 9990⟩, ⟨1, 10000⟩] 10001
  else .ok [⟨0, 5⟩] 5

/-- Shared inversion: with at least two closes, `resolve_prev_close`
returns the last close when the quote gap exceeds 0.01, else the
second-to-last close. -/
theorem resolve_prev_close_eq (closes : List ℚ) (current l s : ℚ)
    (h2 : 2 ≤ closes.length)
    (hl : closes.get? (closes.length - 1) = some l)
    (hs : closes.get? (closes.length - 2) = some s) :
    resolve_prev_close closes current =
      some (if 1/100 < |current - l| then l else s) := by
  have e2 : ilocNeg closes 2 = some s := by
    rw [ilocNeg, if_pos ⟨by norm_num, h2⟩]; exact hs
  have e1 : ilocNeg closes 1 = some l := by
    rw [ilocNeg, if_pos ⟨le_refl 1, le_trans one_le_two h2⟩]; exact hl
  rw [resolve_prev_close, if_pos h2, e2, Option.some_bind, e1, Option.some_bind]
  split_ifs with h
  · rfl
  · rfl

/-- Shared inversion of the per-instrument loop body: a record stored by
`processStock` carries exactly the arithmetic of app.py lines 88-92 and
passed the non-empty/positive-price guard of line 64. -/
theorem processStock_eq_some (info : StockInfo) (fetch : FetchResult)
    (d : StockData) (hd : processStock info fetch = some d) :
    d.start_price = info.start_price ∧
    d.total_gain_pct = (d.current_price - info.start_price) / info.start_price * 100 ∧
    d.daily_change_amt = d.current_price - d.prev_close ∧
    d.daily_change_pct = (d.current_price - d.prev_close) / d.prev_close * 100 ∧
    ¬ d.history.isEmpty ∧ 0 < d.current_price := by
  cases fetch with
  | err m => simp [processStock] at hd
  | ok hist cp =>
    simp only [processStock] at hd
    by_cases hg : ¬ hist.isEmpty ∧ 0 < cp
    · rw [if_pos hg] at hd
      rcases hre : resolve_prev_close (hist.map Sample.close) cp with _ | pc
      · rw [hre] at hd; simp at hd
      · rw [hre] at hd
        injection hd with h
        subst h
        exact ⟨rfl, rfl, rfl, rfl, hg.1, hg.2⟩
    · rw [if_neg hg] at hd; simp at hd

/-- C2: for an instrument with at least 2 history samples and a live
quote, a gap above 0.01 between the quote and the last close resolves the
previous close to the last close; otherwise to the second-to-last close. -/
theorem prev_close_quote_heuristic (closes : List ℚ) (current l s : ℚ)
    (h2 : 2 ≤ closes.length)
    (hl : closes.get? (closes.length - 1) = some l)
    (hs : closes.get? (closes.length - 2) = some s) :
    (1/100 < |current - l| → resolve_prev_close closes current = some l) ∧
    (|current - l| ≤ 1/100 → resolve_prev_close closes current = some s) := by
  have h := resolve_prev_close_eq closes current l s h2 hl hs
  constructor
  · intro hgt; rw [h, if_pos hgt]
  · intro hle; rw [h, if_neg (not_lt.2 hle)]

/-- Witness for C2 at the concrete series [3, 5] and quote 10. -/
theorem prev_close_quote_heuristic_witness :
    resolve_prev_close [3, 5] 10 = some 5 :=
  (prev_close_quote_heuristic [3, 5] 10 5 3 (by norm_num) rfl rfl).1 (by norm_num)

/-- C4: every stored record's total gain, daily change amount and daily
change percentage follow the formulas of app.py lines 88-92. -/
theorem gain_and_daily_change_formulas (info : StockInfo) (fetch : FetchResult)
    (d : StockData) (_hpos : 0 < info.start_price)
    (hd : processStock info fetch = some d) :
    d.total_gain_pct = (d.current_price - info.start_price) / info.start_price * 100 ∧
    d.daily_change_amt = d.current_price - d.prev_close ∧
    d.daily_change_pct = d.daily_change_amt / d.prev_close * 100 := by
  obtain ⟨-, h1, h2, h3, -, -⟩ := processStock_eq_some info fetch d hd
  exact ⟨h1, h2, by rw [h3, h2]⟩

/-- Witness for C4 at a concrete instrument with baseline 10 and quote 5. -/
theorem gain_and_daily_change_formulas_witness :
    (-50 : ℚ) = ((5 : ℚ) - 10) / 10 * 100 ∧
    (0 : ℚ) = (5 : ℚ) - 5 ∧
    (0 : ℚ) = (0 : ℚ) / 5 * 100 :=
  gain_and_daily_change_formulas ⟨"A", 10, "n"⟩ (.ok [⟨0, 4⟩] 5)
    ⟨"A", "n", 10, 5, 5, -50, 0, 0, [⟨0, 4⟩]⟩ (by norm_num)
    (by norm_num [processStock, resolve_prev_close])

/-- C7: an empty series makes `get_projection` return the 0.0 sentinel,
and an instrument fetched with an empty history is never stored. -/
theorem empty_series_sentinel_and_excluded :
    (∀ target : ℤ, get_projection [] target = 0) ∧
    (∀ (info : StockInfo) (p : ℚ), processStock info (.ok [] p) = none) := by
  refine ⟨fun _ => rfl, fun info p => ?_⟩
  simp [processStock]

/-- C8: with exactly one history sample and a positive live quote, the
previous close falls back to the current price, so both daily change
fields are zero and the record is stored without error. -/
theorem single_sample_prev_is_current (info : StockInfo) (s : Sample) (p : ℚ)
    (hp : 0 < p) :
    processStock info (.ok [s] p) =
      some { ticker := info.ticker, name := info.name,
             start_price := info.start_price,
             current_price := p, prev_close := p,
             total_gain_pct := (p - info.start_price) / info.start_price * 100,
             daily_change_amt := 0, daily_change_pct := 0,
             history := [s] } := by
  have hres : resolve_prev_close [s.close] p = some p := by
    simp [resolve_prev_close]
  simp [processStock, hp, hres, sub_self]

/-- Witness for C8 at a concrete one-sample instrument. -/
theorem single_sample_prev_is_current_witness :
    processStock ⟨"A", 10, "n"⟩ (.ok [⟨0, 4⟩] 5) =
      some ⟨"A", "n", 10, 5, 5, ((5 : ℚ) - 10) / 10 * 100, 0, 0, [⟨0, 4⟩]⟩ :=
  single_sample_prev_is_current ⟨"A", 10, "n"⟩ ⟨0, 4⟩ 5 (by norm_num)

/-- C9: with at least two samples, previous-close resolution succeeds (no
out-of-range read) and yields the last or second-to-last close. -/
theorem prev_close_safe_and_recent (closes : List ℚ) (current : ℚ)
    (h2 : 2 ≤ closes.length) :
    (resolve_prev_close closes current).isSome ∧
    (resolve_prev_close closes current = closes.get? (closes.length - 1) ∨
     resolve_prev_close closes current = closes.get? (closes.length - 2)) := by
  have h1 : closes.length - 1 < closes.length := by omega
  have h2' : closes.length - 2 < closes.length := by omega
  have hl := List.get?_eq_get h1
  have hs := List.get?_eq_get h2'
  have h := resolve_prev_close_eq closes current _ _ h2 hl hs
  rw [h]
  refine ⟨rfl, ?_⟩
  split_ifs
  · left; rw [hl]
  · right; rw [hs]

/-- Witness for C9 at the concrete series [3, 5] and quote 10. -/
theorem prev_close_safe_and_recent_witness :
    (resolve_prev_close [3, 5] 10).isSome ∧
    (resolve_prev_close [3, 5] 10 = ([3, 5] : List ℚ).get? 1 ∨
     resolve_prev_close [3, 5] 10 = ([3, 5] : List ℚ).get? 0) :=
  prev_close_safe_and_recent [3, 5] 10 (by norm_num)

/-- C6: at most two instruments can resolve; the comparison section
appears exactly when two did, and with fewer the single warning of
app.py line 180 is shown instead. -/
theorem comparison_iff_exactly_two (env : String → FetchResult) (target : ℤ) :
    (buildStore env).length ≤ 2 ∧
    ((buildStore env).length = 2 ↔
      ∃ c, render target (buildStore env) = .comparison c) ∧
    ((buildStore env).length < 2 →
      render target (buildStore env) =
        .warning "Could not load data for both stocks to perform comparison.") := by
  have hle : (buildStore env).length ≤ 2 := by
    have h := List.length_filterMap_le
      (fun info => processStock info (env info.ticker)) STOCKS
    simpa [buildStore, STOCKS] using h
  refine ⟨hle, ⟨?_, ?_⟩, ?_⟩
  · intro h2
    obtain ⟨a, b, hab⟩ := List.length_eq_two.1 h2
    exact ⟨_, by rw [hab]; rfl⟩
  · rintro ⟨c, hc⟩
    rcases hs : buildStore env with _ | ⟨a, _ | ⟨b, _ | ⟨x, tl⟩⟩⟩ <;>
      rw [hs] at hc
    · simp [render] at hc
    · simp [render] at hc
    · rfl
    · simp [render] at hc
  · intro hlt
    rcases hs : buildStore env with _ | ⟨a, _ | ⟨b, tl⟩⟩
    · rfl
    · rfl
    · rw [hs] at hlt; simp at hlt; omega

/-- Witness for C6: with both fetches failing, the store is empty and the
warning is rendered. -/
theorem comparison_iff_exactly_two_witness :
    render 0 (buildStore fun _ => .err "boom") =
      .warning "Could not load data for both stocks to perform comparison." :=
  (comparison_iff_exactly_two (fun _ => .err "boom") 0).2.2 (by decide)

/-- C3: the rendered match prices are each instrument's own baseline times
one plus the other's total gain over 100, where both total gains were
already fixed by the per-instrument loop before the comparison section. -/
theorem match_price_uses_other_gain (ia ib : StockInfo) (fa fb : FetchResult)
    (a b : StockData) (target : ℤ)
    (ha : processStock ia fa = some a) (hb : processStock ib fb = some b) :
    render target [a, b] = .comparison {
      stock_a := a
      stock_b := b
      a_match_price := a.start_price * (1 + b.total_gain_pct / 100)
      b_match_price := b.start_price * (1 + a.total_gain_pct / 100)
      a_projection := get_projection a.history target
      b_projection := get_projection b.history target
      verdict := daily_battle a b } ∧
    a.total_gain_pct = (a.current_price - ia.start_price) / ia.start_price * 100 ∧
    b.total_gain_pct = (b.current_price - ib.start_price) / ib.start_price * 100 := by
  obtain ⟨-, h1, -, -, -, -⟩ := processStock_eq_some ia fa a ha
  obtain ⟨-, h2, -, -, -, -⟩ := processStock_eq_some ib fb b hb
  exact ⟨rfl, h1, h2⟩

/-- Witness for C3 at two concrete one-sample instruments. -/
theorem match_price_uses_other_gain_witness :
    render 0 [⟨"A", "n", 10, 5, 5, -50, 0, 0, [⟨0, 4⟩]⟩,
              ⟨"B", "m", 20, 10, 10, -50, 0, 0, [⟨0, 8⟩]⟩] = .comparison {
      stock_a := ⟨"A", "n", 10, 5, 5, -50, 0, 0, [⟨0, 4⟩]⟩
      stock_b := ⟨"B", "m", 20, 10, 10, -50, 0, 0, [⟨0, 8⟩]⟩
      a_match_price := 10 * (1 + (-50 : ℚ) / 100)
      b_match_price := 20 * (1 + (-50 : ℚ) / 100)
      a_projection := get_projection [⟨0, 4⟩] 0
      b_projection := get_projection [⟨0, 8⟩] 0
      verdict := daily_battle ⟨"A", "n", 10, 5, 5, -50, 0, 0, [⟨0, 4⟩]⟩
        ⟨"B", "m", 20, 10, 10, -50, 0, 0, [⟨0, 8⟩]⟩ } ∧
    (-50 : ℚ) = ((5 : ℚ) - 10) / 10 * 100 ∧
    (-50 : ℚ) = ((10 : ℚ) - 20) / 20 * 100 :=
  match_price_uses_other_gain ⟨"A", 10, "n"⟩ ⟨"B", 20, "m"⟩
    (.ok [⟨0, 4⟩] 5) (.ok [⟨0, 8⟩] 10) _ _ 0
    (by norm_num [processStock, resolve_prev_close])
    (by norm_num [processStock, resolve_prev_close])

/-- C10: every stored record has a non-empty history and a positive
current price, so the projection of a stored history never takes the
empty-series sentinel branch, and the two stocks of a rendered comparison
are stored records. -/
theorem store_entry_invariant (env : String → FetchResult) (target : ℤ)
    (d : StockData) (hd : d ∈ buildStore env) :
    ¬ d.history.isEmpty ∧ 0 < d.current_price ∧
    get_projection d.history target = fitEval d.history target ∧
    (∀ c, render target (buildStore env) = .comparison c →
      c.stock_a ∈ buildStore env ∧ c.stock_b ∈ buildStore env) := by
  obtain ⟨info, -, hp⟩ := List.mem_filterMap.1 hd
  obtain ⟨-, -, -, -, hne, hpos⟩ := processStock_eq_some info _ d hp
  refine ⟨hne, hpos, by simp [get_projection, hne], ?_⟩
  intro c hc
  rcases hs : buildStore env with _ | ⟨x, _ | ⟨y, _ | ⟨z, tl⟩⟩⟩ <;>
    rw [hs] at hc
  · simp [render] at hc
  · simp [render] at hc
  · rw [render] at hc
    injection hc with h
    rw [← h]
    exact ⟨by simp, by simp⟩
  · simp [render] at hc

/-- Witness for C10 with one resolved and one failing instrument. -/
theorem store_entry_invariant_witness :
    ¬ ([⟨0, 4⟩] : List Sample).isEmpty ∧ (0 : ℚ) < 5 ∧
    get_projection [⟨0, 4⟩] 0 = fitEval [⟨0, 4⟩] 0 :=
  have h := store_entry_invariant
    (fun t => if t = "AVGO" then .ok [⟨0, 4⟩] 5 else .err "e") 0
    ⟨"AVGO", "Broadcom Inc.", 294.30, 5, 5, ((5 : ℚ) - 294.30) / 294.30 * 100,
      0, 0, [⟨0, 4⟩]⟩
    (by norm_num [buildStore, STOCKS, processStock, resolve_prev_close])
  ⟨h.1, h.2.1, h.2.2.1⟩

/-- C1 counterexample: with the concrete environment `envBoundary` the two
resolved instruments' daily change percentages are exactly 0.01 and 0, a
difference of exactly 0.01, yet the battle verdict is a win for the first
instrument, not a draw. -/
theorem battle_boundary_counterexample :
    (buildStore envBoundary).map StockData.daily_change_pct = [1/100, 0] ∧
    outputVerdict (render 0 (buildStore envBoundary)) =
      some (.winA (1/100)) := by
  have hresA : resolve_prev_close [(9990 : ℚ), 10000] 10001 = some 10000 := by
    have h := resolve_prev_close_eq [(9990 : ℚ), 10000] 10001 10000 9990
      (by norm_num) rfl rfl
    rw [h, if_pos (by norm_num [lt_abs])]
  have hA : processStock ⟨"AVGO", 294.30, "Broadcom Inc."⟩
      (.ok [⟨0, 9990⟩, ⟨1, 10000⟩] 10001) = some
      ⟨"AVGO", "Broadcom Inc.", 294.30, 10001, 10000,
        ((10001 : ℚ) - 294.30) / 294.30 * 100, (10001 : ℚ) - 10000,
        ((10001 : ℚ) - 10000) / 10000 * 100, [⟨0, 9990⟩, ⟨1, 10000⟩]⟩ := by
    simp only [processStock, List.map_cons, List.map_nil]
    rw [if_pos (by norm_num), hresA]
  have hresB : resolve_prev_close [(5 : ℚ)] 5 = some 5 := by
    simp [resolve_prev_close]
  have hB : processStock ⟨"VTSAX", 152.64, "Vanguard Total Stock Market"⟩
      (.ok [⟨0, 5⟩] 5) = some
      ⟨"VTSAX", "Vanguard Total Stock Market", 152.64, 5, 5,
        ((5 : ℚ) - 152.64) / 152.64 * 100, (5 : ℚ) - 5,
        ((5 : ℚ) - 5) / 5 * 100, [⟨0, 5⟩]⟩ := by
    simp only [processStock, List.map_cons, List.map_nil]
    rw [if_pos (by norm_num), hresB]
  have he1 : envBoundary "AVGO" = .ok [⟨0, 9990⟩, ⟨1, 10000⟩] 10001 := rfl
  have he2 : envBoundary "VTSAX" = .ok [⟨0, 5⟩] 5 := rfl
  have hstore : buildStore envBoundary =
      [⟨"AVGO", "Broadcom Inc.", 294.30, 10001, 10000,
         ((10001 : ℚ) - 294.30) / 294.30 * 100, (10001 : ℚ) - 10000,
         ((10001 : ℚ) - 10000) / 10000 * 100, [⟨0, 9990⟩, ⟨1, 10000⟩]⟩,
       ⟨"VTSAX", "Vanguard Total Stock Market", 152.64, 5, 5,
         ((5 : ℚ) - 152.64) / 152.64 * 100, (5 : ℚ) - 5,
         ((5 : ℚ) - 5) / 5 * 100, [⟨0, 5⟩]⟩] := by
    simp only [buildStore, STOCKS, List.filterMap_cons, List.filterMap_nil,
      he1, he2, hA, hB]
  rw [hstore]
  constructor
  · norm_num
  · norm_num [render, outputVerdict, daily_battle, abs_lt]

/-- C1 amended: a daily change percentage difference of absolute value
strictly below 0.01 is a draw; at 0.01 and above the instrument with the
larger daily change percentage wins by the absolute difference. -/
theorem battle_verdict_rule (a b : StockData)
    (hge : 1/100 ≤ |a.daily_change_pct - b.daily_change_pct|) :
    (b.daily_change_pct < a.daily_change_pct →
      daily_battle a b = .winA (a.daily_change_pct - b.daily_change_pct)) ∧
    (a.daily_change_pct < b.daily_change_pct →
      daily_battle a b = .winB (b.daily_change_pct - a.daily_change_pct)) ∧
    (∀ a' b' : StockData,
      |a'.daily_change_pct - b'.daily_change_pct| < 1/100 →
      daily_battle a' b' = .draw) := by
  refine ⟨?_, ?_, ?_⟩
  · intro hlt
    rw [daily_battle, if_neg (not_lt.2 hge),
      if_pos (sub_pos.2 hlt)]
  · intro hlt
    have hneg : a.daily_change_pct - b.daily_change_pct < 0 := sub_neg.2 hlt
    rw [daily_battle, if_neg (not_lt.2 hge), if_neg (not_lt.2 hneg.le),
      abs_of_neg hneg, neg_sub]
  · intro a' b' hlt
    rw [daily_battle, if_pos hlt]

/-- Witness for the amended C1 at two concrete one-sample instruments
whose daily change percentages differ by 1. -/
theorem battle_verdict_rule_witness :
    daily_battle ⟨"A", "n", 10, 5, 5, -50, 1, 1, [⟨0, 4⟩]⟩
      ⟨"B", "m", 20, 10, 10, -50, 0, 0, [⟨0, 8⟩]⟩ = .winA ((1 : ℚ) - 0) :=
  (battle_verdict_rule ⟨"A", "n", 10, 5, 5, -50, 1, 1, [⟨0, 4⟩]⟩
    ⟨"B", "m", 20, 10, 10, -50, 0, 0, [⟨0, 8⟩]⟩ (by norm_num)).1 (by norm_num)

/-- Summing a list shifted by a constant. -/
theorem sum_map_add_const (c : ℚ) : ∀ xs : List ℚ,
    (xs.map fun x => x + c).sum = xs.sum + xs.length * c
  | [] => by simp
  | a :: xs => by
    simp only [List.map_cons, List.sum_cons, List.length_cons,
      sum_map_add_const c xs]
    push_cast
    ring

/-- Pointwise product of a list with its shift by a constant. -/
theorem sum_zip_self_add_const (c : ℚ) : ∀ xs : List ℚ,
    (List.zipWith (· * ·) xs (xs.map fun x => x + c)).sum
      = (xs.map fun x => x * x).sum + c * xs.sum
  | [] => by simp
  | a :: xs => by
    simp only [List.map_cons, List.zipWith_cons_cons, List.sum_cons,
      sum_zip_self_add_const c xs]
    ring

/-- Expansion of the sum of squared deviations from a point. -/
theorem sum_sq_sub (a : ℚ) : ∀ xs : List ℚ,
    (xs.map fun x => (a - x) * (a - x)).sum
      = xs.length * (a * a) - 2 * a * xs.sum + (xs.map fun x => x * x).sum
  | [] => by simp
  | b :: xs => by
    simp only [List.map_cons, List.sum_cons, List.length_cons, sum_sq_sub a xs]
    push_cast
    ring

/-- Peeling one point off the normal-equation denominator. -/
theorem lsqDenom_cons (a : ℚ) (xs : List ℚ) :
    lsqDenom (a :: xs)
      = lsqDenom xs + (xs.map fun x => (a - x) * (a - x)).sum := by
  simp only [lsqDenom, List.map_cons, List.sum_cons, List.length_cons,
    sum_sq_sub]
  push_cast
  ring

/-- Sums of squared deviations are nonnegative. -/
theorem sq_sub_sum_nonneg (a : ℚ) (xs : List ℚ) :
    0 ≤ (xs.map fun x => (a - x) * (a - x)).sum := by
  apply List.sum_nonneg
  intro y hy
  obtain ⟨x, -, rfl⟩ := List.mem_map.1 hy
  exact mul_self_nonneg _

/-- The normal-equation denominator is nonnegative. -/
theorem lsqDenom_nonneg : ∀ xs : List ℚ, 0 ≤ lsqDenom xs
  | [] => by simp [lsqDenom]
  | a :: xs => by
    rw [lsqDenom_cons]
    have h1 := lsqDenom_nonneg xs
    have h2 := sq_sub_sum_nonneg a xs
    linarith

/-- A squared deviation from a distinct member makes the sum positive. -/
theorem sq_sub_sum_pos (a x : ℚ) (xs : List ℚ) (hx : x ∈ xs) (hne : x ≠ a) :
    0 < (xs.map fun t => (a - t) * (a - t)).sum := by
  induction xs with
  | nil => simp at hx
  | cons y ys ih =>
    simp only [List.map_cons, List.sum_cons]
    rcases List.mem_cons.1 hx with h | hmem
    · have hay : a ≠ y := fun h' => hne (h.trans h'.symm)
      have hpos : 0 < (a - y) * (a - y) :=
        mul_self_pos.2 (sub_ne_zero.2 hay)
      have h2 := sq_sub_sum_nonneg a ys
      linarith
    · have h1 := ih hmem
      have h2 : 0 ≤ (a - y) * (a - y) := mul_self_nonneg _
      linarith

/-- Two distinct abscissas make the normal-equation denominator positive. -/
theorem lsqDenom_pos (a x : ℚ) (xs : List ℚ) (hx : x ∈ xs) (hne : x ≠ a) :
    0 < lsqDenom (a :: xs) := by
  rw [lsqDenom_cons]
  have h1 := lsqDenom_nonneg xs
  have h2 := sq_sub_sum_pos a x xs hx hne
  linarith

/-- On exactly linear data of unit slope the fitted slope is exactly 1. -/
theorem lsqSlope_linear (c : ℚ) (xs : List ℚ) (hd : lsqDenom xs ≠ 0) :
    lsqSlope xs (xs.map fun x => x + c) = 1 := by
  rw [lsqSlope, sum_zip_self_add_const, sum_map_add_const]
  have hnum : (xs.length : ℚ) * ((xs.map fun x => x * x).sum + c * xs.sum)
      - xs.sum * (xs.sum + xs.length * c)
      = (xs.length : ℚ) * (xs.map fun x => x * x).sum - xs.sum * xs.sum := by
    ring
  rw [hnum]
  exact div_self (by simpa [lsqDenom] using hd)

/-- On exactly linear data of unit slope the fitted intercept is exactly
the linear offset. -/
theorem lsqIntercept_linear (c : ℚ) (xs : List ℚ)
    (hne : xs ≠ []) (hd : lsqDenom xs ≠ 0) :
    lsqIntercept xs (xs.map fun x => x + c) = c := by
  have hn : (xs.length : ℚ) ≠ 0 :=
    Nat.cast_ne_zero.2 fun h => hne (List.length_eq_zero.1 h)
  rw [lsqIntercept, lsqSlope_linear c xs hd, sum_map_add_const, one_mul]
  field_simp

/-- C5: on a history whose closes grow by exactly one unit per ordinal
day, with at least two samples on strictly increasing dates, the
projection at ten days past the last sample is exactly the last close
plus ten. -/
theorem linear_series_projection (hist : List Sample) (c : ℚ)
    (hlen : 2 ≤ hist.length)
    (hmono : hist.Pairwise fun s t => s.date < t.date)
    (hlin : ∀ s ∈ hist, s.close = (s.date : ℚ) + c)
    (lastS : Sample) (hlast : hist.getLast? = some lastS) :
    get_projection hist (lastS.date + 10) = lastS.close + 10 := by
  have hys : hist.map Sample.close
      = (hist.map fun s => (s.date : ℚ)).map fun x => x + c := by
    rw [List.map_map]
    exact List.map_congr_left hlin
  rcases hist with _ | ⟨s0, _ | ⟨s1, rest⟩⟩
  · simp at hlen
  · simp at hlen
  · have h01 : s0.date < s1.date :=
      (List.pairwise_cons.1 hmono).1 s1 (by simp)
    have hd : 0 < lsqDenom ((s0 :: s1 :: rest).map fun s => (s.date : ℚ)) := by
      simp only [List.map_cons]
      exact lsqDenom_pos _ ((s1.date : ℚ)) _
        (by simp) (by exact_mod_cast h01.ne')
    have hxne : ((s0 :: s1 :: rest).map fun s => (s.date : ℚ)) ≠ [] := by
      simp
    have hmem : lastS ∈ s0 :: s1 :: rest := by
      obtain ⟨h', he⟩ := List.mem_getLast?_eq_getLast (Option.mem_def.2 hlast)
      rw [he]
      exact List.getLast_mem h'
    rw [get_projection, if_neg (by simp)]
    rw [fitEval, polyfit1, hys, lsqSlope_linear c _ hd.ne',
      lsqIntercept_linear c _ hxne hd.ne', hlin lastS hmem]
    push_cast
    ring

/-- Witness for C5 on a concrete two-sample linear history. -/
theorem linear_series_projection_witness :
    get_projection [⟨0, 5⟩, ⟨1, 6⟩] 11 = 16 := by
  have h := linear_series_projection [⟨0, 5⟩, ⟨1, 6⟩] 5 (by norm_num)
    (by
      refine List.Pairwise.cons ?_ (List.pairwise_singleton _ _)
      intro t ht
      rw [List.mem_singleton.1 ht]
      norm_num)
    (by
      intro s hs
      fin_cases hs <;> norm_num)
    ⟨1, 6⟩ rfl
  norm_num at h
  exact h

end EricBet
